import Mathlib

set_option maxRecDepth 100000

/-!
Verification of the Odoo ERP AI-agent chat widget
(`addons/ai_agent_odoo/static/src/js` component `AIAgentForm`).

The JavaScript source is shallowly embedded: every function below is a
direct executable translation of the corresponding method of the widget,
working on `List Char` internally and `String` at the boundary.
External collaborators (the model-service HTTP call, the Odoo RPC
endpoint, the notification/action services) are modelled as explicit
inputs and as effect lists in the result records.
-/

namespace AIAgent

/-! Section: basic character / string utilities (JS semantics) -/

/-- JS `\d`. -/
def isDigitCh (c : Char) : Bool := '0' ≤ c && c ≤ '9'

/-- JS `\w` = `[A-Za-z0-9_]`. -/
def isWordCh (c : Char) : Bool := c.isAlpha || isDigitCh c || c = '_'

/-- JS `\s` (the whitespace characters that occur in practice: space, tab,
newline, carriage return, vertical tab, form feed, no-break space). -/
def isJsWs (c : Char) : Bool :=
  c = ' ' || c = '\t' || c = '\n' || c = '\r' || c = '\x0b' || c = '\x0c' || c = ' '

/-- Longest prefix satisfying `p` together with the remainder (regex greedy `X*`). -/
def takeWhileL (p : Char → Bool) : List Char → List Char × List Char
  | [] => ([], [])
  | c :: cs =>
    if p c then
      let pr := takeWhileL p cs
      (c :: pr.1, pr.2)
    else ([], c :: cs)

/-- Does `cs` start with the literal `sep`? -/
def leadsWith : List Char → List Char → Bool
  | [], _ => true
  | a :: as, b :: bs => a = b && leadsWith as bs
  | _, _ => false

/-- Does the character occur in the list?  (JS `String.prototype.includes` for
a single character.) -/
def hasCharL : List Char → Char → Bool
  | [], _ => false
  | c :: cs, d => c = d || hasCharL cs d

/-- First occurrence of the literal `sep`: `some (before, after)` where
`after` is the text following the separator (JS `split(sep)` components 0/1). -/
def breakOnL (sep : List Char) : List Char → Option (List Char × List Char)
  | [] => none
  | c :: cs =>
    if leadsWith sep (c :: cs) then some ([], (c :: cs).drop sep.length)
    else (breakOnL sep cs).map (fun pr => (c :: pr.1, pr.2))

/-- JS `String.prototype.trim` (both ends, `\s`). -/
def jsTrimL (cs : List Char) : List Char :=
  ((cs.dropWhile isJsWs).reverse.dropWhile isJsWs).reverse

def jsTrim (s : String) : String := ⟨jsTrimL s.data⟩

/-! Section: `escapeHtml`

```js
unsafe.replace(/&/g,"&amp;").replace(/</g,"&lt;").replace(/>/g,"&gt;")
      .replace(/"/g,"&quot;").replace(/'/g,"&#039;")
```
Five sequential global single-character replacements, applied in order. -/

def replChar (c : Char) (s : List Char) : List Char → List Char
  | [] => []
  | d :: rest => (if d = c then s else [d]) ++ replChar c s rest

def escapeHtmlL (cs : List Char) : List Char :=
  replChar '\'' "&#039;".data
    (replChar '"' "&quot;".data
      (replChar '>' "&gt;".data
        (replChar '<' "&lt;".data
          (replChar '&' "&amp;".data cs))))

def escapeHtml (s : String) : String := ⟨escapeHtmlL s.data⟩

/-! Section: `formatResponse`

Each JS `line.replace(regex, repl)` is embedded as a left-to-right scan:
at every position the matcher is tried; on a match the pre-computed
replacement text is emitted and scanning resumes after the matched span
(the replacement is not re-scanned, as in JS `replace`); otherwise one
character is copied.  A matcher returns `(replacementText, remainder)`. -/

/-- Generic fueled replace-all scan.  All matchers below consume at least one
character on success, so fuel `cs.length` never runs out on the inputs the
widget processes; exhausted fuel copies the remainder unchanged. -/
def replFuel (m : List Char → Option (List Char × List Char)) : Nat → List Char → List Char
  | _, [] => []
  | 0, cs => cs
  | fuel + 1, c :: cs =>
    match m (c :: cs) with
    | some (repl, rest) => repl ++ replFuel m fuel rest
    | none => c :: replFuel m fuel cs

def replAll (m : List Char → Option (List Char × List Char)) (cs : List Char) : List Char :=
  replFuel m cs.length cs

/-- Matcher for `https?:\/\/[^\s]+` (first alternative of the URL/email regex). -/
def matchUrl : List Char → Option (List Char × List Char)
  | 'h' :: 't' :: 't' :: 'p' :: rest =>
    let pr : List Char × List Char :=
      match rest with
      | 's' :: r => (['s'], r)
      | _ => ([], rest)
    (match pr.2 with
     | ':' :: '/' :: '/' :: r3 =>
       match takeWhileL (fun c => !isJsWs c) r3 with
       | ([], _) => none
       | (body, r4) => some ("http".data ++ pr.1 ++ "://".data ++ body, r4)
     | _ => none)
  | _ => none

/-- JS `[\w.-]`. -/
def isEmailCh (c : Char) : Bool := isWordCh c || c = '.' || c = '-'

/-- Backtracking for `[\w.-]+\.\w+` applied to the maximal `[\w.-]` run after
`@`: the engine prefers the longest first group, i.e. the rightmost `.` that
is followed by a word character.  Returns `(beforeDot, wordRun, leftover)`. -/
def emailDotSplit : List Char → Option (List Char × List Char × List Char)
  | [] => none
  | c :: cs =>
    match emailDotSplit cs with
    | some (a, w, r) => some (c :: a, w, r)
    | none =>
      if c = '.' then
        match takeWhileL isWordCh cs with
        | ([], _) => none
        | (w, r) => some ([], w, r)
      else none

/-- Matcher for `[\w.-]+@[\w.-]+\.\w+` (second alternative).  `@` and the
final `.`/word-run placement follow regex backtracking: the runs before and
after `@` are maximal, and the rightmost admissible dot split is taken. -/
def matchEmail (cs : List Char) : Option (List Char × List Char) :=
  match takeWhileL isEmailCh cs with
  | ([], _) => none
  | (run1, rest1) =>
    match rest1 with
    | '@' :: rest2 =>
      (match takeWhileL isEmailCh rest2 with
       | ([], _) => none
       | (run2, rest3) =>
         match emailDotSplit run2 with
         | some (a, w, leftover) =>
           if a = [] then none
           else some (run1 ++ '@' :: (a ++ '.' :: w), leftover ++ rest3)
         | none => none)
    | _ => none

/-- Embeds `line.replace(/(https?:\/\/[^\s]+|[\w.-]+@[\w.-]+\.\w+)/g, 'URL_EMAIL_PLACEHOLDER_$1')`. -/
def urlEmailRepl (cs : List Char) : Option (List Char × List Char) :=
  match matchUrl cs with
  | some (m, r) => some ("URL_EMAIL_PLACEHOLDER_".data ++ m, r)
  | none =>
    match matchEmail cs with
    | some (m, r) => some ("URL_EMAIL_PLACEHOLDER_".data ++ m, r)
    | none => none

/-- Embeds `line.replace(/(\d+\.\d+)/g, 'DECIMAL_PLACEHOLDER_$1')`. -/
def decimalRepl (cs : List Char) : Option (List Char × List Char) :=
  match takeWhileL isDigitCh cs with
  | ([], _) => none
  | (d1, rest1) =>
    match rest1 with
    | '.' :: rest2 =>
      (match takeWhileL isDigitCh rest2 with
       | ([], _) => none
       | (d2, rest3) => some ("DECIMAL_PLACEHOLDER_".data ++ d1 ++ '.' :: d2, rest3))
    | _ => none

/-- Up to `n` leading digits (greedy bounded quantifier). -/
def takeUpToDigits : Nat → List Char → List Char × List Char
  | 0, cs => ([], cs)
  | _ + 1, [] => ([], [])
  | n + 1, c :: cs =>
    if isDigitCh c then
      let pr := takeUpToDigits n cs
      (c :: pr.1, pr.2)
    else ([], c :: cs)

/-- Embeds `\d{2,4}` at the end of the date pattern (greedy, at least 2). -/
def dateLastGroup (cs : List Char) : Option (List Char × List Char) :=
  let pr := takeUpToDigits 4 cs
  if pr.1.length ≥ 2 then some (pr.1, pr.2) else none

/-- Embeds `\d{1,2}\.\d{2,4}` with greedy 2-then-1 backtracking on the first group. -/
def dateTail (r2 : List Char) : Option (List Char × List Char) :=
  match r2 with
  | c :: cs =>
    if isDigitCh c then
      let two : Option (List Char × List Char) :=
        match cs with
        | c2 :: cs2 =>
          if isDigitCh c2 then
            match cs2 with
            | '.' :: cs3 => (dateLastGroup cs3).map (fun pr => (c :: c2 :: '.' :: pr.1, pr.2))
            | _ => none
          else none
        | [] => none
      match two with
      | some res => some res
      | none =>
        match cs with
        | '.' :: cs3 => (dateLastGroup cs3).map (fun pr => (c :: '.' :: pr.1, pr.2))
        | _ => none
    else none
  | [] => none

/-- Embeds `line.replace(/(\d{1,2}\.\d{1,2}\.\d{2,4})/g, 'DATE_PLACEHOLDER_$1')`. -/
def dateRepl (cs : List Char) : Option (List Char × List Char) :=
  match cs with
  | c :: rest =>
    if isDigitCh c then
      let two : Option (List Char × List Char) :=
        match rest with
        | c2 :: rest2 =>
          if isDigitCh c2 then
            match rest2 with
            | '.' :: rest3 => (dateTail rest3).map (fun pr => (c :: c2 :: '.' :: pr.1, pr.2))
            | _ => none
          else none
        | [] => none
      let res : Option (List Char × List Char) :=
        match two with
        | some r => some r
        | none =>
          match rest with
          | '.' :: rest3 => (dateTail rest3).map (fun pr => (c :: '.' :: pr.1, pr.2))
          | _ => none
      res.map (fun pr => ("DATE_PLACEHOLDER_".data ++ pr.1, pr.2))
    else none
  | [] => none

/-- The abbreviation alternatives, in source order. -/
def abbrList : List (List Char) :=
  ["Dr.".data, "Mr.".data, "Mrs.".data, "Ms.".data, "Prof.".data,
   "etc.".data, "e.g.".data, "i.e.".data]

def firstAbbrLen : List (List Char) → List Char → Option Nat
  | [], _ => none
  | a :: rest, cs => if leadsWith a cs then some a.length else firstAbbrLen rest cs

/-- Embeds `line.replace(/(?:Dr\.|Mr\.|Mrs\.|Ms\.|Prof\.|etc\.|e\.g\.|i\.e\.)/g, 'ABBR_PLACEHOLDER_$1')`.
The group is non-capturing, so in JS the `$1` in the replacement is a
literal: the matched abbreviation is replaced by the literal text
`ABBR_PLACEHOLDER_$1` (the abbreviation itself is dropped). -/
def abbrRepl (cs : List Char) : Option (List Char × List Char) :=
  match firstAbbrLen abbrList cs with
  | some n => some ("ABBR_PLACEHOLDER_$1".data, cs.drop n)
  | none => none

/-- Embeds `line.replace(/([.!?])\s+/g, '$1\n')`. -/
def sentenceRepl (cs : List Char) : Option (List Char × List Char) :=
  match cs with
  | c :: rest =>
    if c = '.' || c = '!' || c = '?' then
      match takeWhileL isJsWs rest with
      | ([], _) => none
      | (_, r) => some ([c, '\n'], r)
    else none
  | [] => none

/-- Embeds `line.replace(/:\s+/g, ':\n')`. -/
def colonRepl (cs : List Char) : Option (List Char × List Char) :=
  match cs with
  | ':' :: rest =>
    (match takeWhileL isJsWs rest with
     | ([], _) => none
     | (_, r) => some ([':', '\n'], r))
  | _ => none

/-- Embeds `line.replace(/(\d+\.)\s+/g, '\n$1 ')`. -/
def numberedRepl (cs : List Char) : Option (List Char × List Char) :=
  match takeWhileL isDigitCh cs with
  | ([], _) => none
  | (ds, rest1) =>
    match rest1 with
    | '.' :: rest2 =>
      (match takeWhileL isJsWs rest2 with
       | ([], _) => none
       | (_, r) => some ('\n' :: (ds ++ ['.', ' ']), r))
    | _ => none

/-- Embeds `line.replace(/([-â€¢])\s+/g, '\n$1 ')`.  The source file holds the three
bytes `â`, `€`, `¢` (a mis-decoded bullet), so the character class is
`-`, U+00E2, U+20AC, U+00A2. -/
def bulletRepl (cs : List Char) : Option (List Char × List Char) :=
  match cs with
  | c :: rest =>
    if c = '-' || c = 'â' || c = '€' || c = '¢' then
      match takeWhileL isJsWs rest with
      | ([], _) => none
      | (_, r) => some ('\n' :: c :: [' '], r)
    else none
  | [] => none

/-- Literal global deletion, for the placeholder-restoring replaces. -/
def deleteLit (lit : List Char) (cs : List Char) : Option (List Char × List Char) :=
  if leadsWith lit cs then some ([], cs.drop lit.length) else none

/-- One line of `formatResponse`: the eight replaces followed by the four
placeholder restorations, in source order. -/
def perLine (l0 : List Char) : List Char :=
  let l1 := replAll urlEmailRepl l0
  let l2 := replAll decimalRepl l1
  let l3 := replAll dateRepl l2
  let l4 := replAll abbrRepl l3
  let l5 := replAll sentenceRepl l4
  let l6 := replAll colonRepl l5
  let l7 := replAll numberedRepl l6
  let l8 := replAll bulletRepl l7
  let l9 := replAll (deleteLit "URL_EMAIL_PLACEHOLDER_".data) l8
  let l10 := replAll (deleteLit "DECIMAL_PLACEHOLDER_".data) l9
  let l11 := replAll (deleteLit "DATE_PLACEHOLDER_".data) l10
  replAll (deleteLit "ABBR_PLACEHOLDER_".data) l11

/-- JS `text.split('\n')`. -/
def splitLines : List Char → List (List Char)
  | [] => [[]]
  | '\n' :: cs => [] :: splitLines cs
  | c :: cs =>
    match splitLines cs with
    | l :: ls => (c :: l) :: ls
    | [] => [[c]]

/-- JS `lines.join('\n')`. -/
def joinLines : List (List Char) → List Char
  | [] => []
  | [l] => l
  | l :: ls => l ++ '\n' :: joinLines ls

/-- Embeds `replace(/\n\n+/g, '\n\n')`. -/
def collapseNN (cs : List Char) : Option (List Char × List Char) :=
  match cs with
  | '\n' :: '\n' :: rest =>
    let pr := takeWhileL (fun c => c = '\n') rest
    some (['\n', '\n'], pr.2)
  | _ => none

/-- Rightmost `\n` inside a whitespace run: `(before, after)` without it. -/
def lastNlSplit : List Char → Option (List Char × List Char)
  | [] => none
  | c :: cs =>
    match lastNlSplit cs with
    | some (a, r) => some (c :: a, r)
    | none => if c = '\n' then some ([], cs) else none

/-- Embeds `replace(/\n\s*\n/g, '\n\n')`: a newline, a greedy whitespace run whose
last newline closes the match (regex backtracking), replaced by `\n\n`. -/
def collapseWsNl (cs : List Char) : Option (List Char × List Char) :=
  match cs with
  | '\n' :: rest =>
    let pr := takeWhileL isJsWs rest
    (match lastNlSplit pr.1 with
     | some (_, r) => some (['\n', '\n'], r ++ pr.2)
     | none => none)
  | _ => none

/-- The widget's `formatResponse` method, line by line. -/
def formatResponseL (cs : List Char) : List Char :=
  let lines := (splitLines cs).map perLine
  let t1 := joinLines lines
  let t2 := replAll collapseNN t1
  let t3 := replAll collapseWsNl t2
  jsTrimL t3

def formatResponse (s : String) : String := ⟨formatResponseL s.data⟩

/-! Section: `createOdooRecordLinks`

Each pattern is `(<keyword alternatives>)\s*#?(\d+)` with flags `gi`.
The code splits every HTML-free part on the pattern (JS `split` keeps the
two capture groups), emits the non-matching segments verbatim and replaces
each match with an anchor built from the pattern's model/display and the
captured id.  Parts that already contain `<` or `>` are passed through. -/

structure LinkPattern where
  /-- Alternatives of capture group 1, lowercased, in source order. -/
  keywords : List (List Char)
  model : String
  display : String

def linkPatterns : List LinkPattern :=
  [ { keywords := ["workorder".data, "wo".data], model := "mrp.workorder", display := "Work Order" },
    { keywords := ["manufacturing order".data, "mo".data], model := "mrp.production", display := "Manufacturing Order" },
    { keywords := ["lead".data, "opportunity".data], model := "crm.lead", display := "Lead" },
    { keywords := ["contact".data, "partner".data], model := "res.partner", display := "Contact" },
    { keywords := ["sale order".data, "so".data], model := "sale.order", display := "Sale Order" },
    { keywords := ["purchase order".data, "po".data], model := "purchase.order", display := "Purchase Order" },
    { keywords := ["invoice".data], model := "account.move", display := "Invoice" } ]

/-- Case-insensitive literal prefix match (`i` flag); returns the remainder. -/
def ciLead : List Char → List Char → Option (List Char)
  | [], cs => some cs
  | _ :: _, [] => none
  | k :: ks, c :: cs => if c.toLower = k then ciLead ks cs else none

/-- Embeds `\s*#?(\d+)` after a keyword: greedy whitespace, optional `#`, then at
least one digit (no useful backtracking exists since `#` and digits are not
whitespace).  Returns the id digits and the remainder. -/
def matchTail (cs : List Char) : Option (List Char × List Char) :=
  let cs1 := cs.dropWhile isJsWs
  let cs2 := match cs1 with
    | '#' :: r => r
    | _ => cs1
  match takeWhileL isDigitCh cs2 with
  | ([], _) => none
  | (ds, rest) => some (ds, rest)

/-- Alternation with backtracking: try each keyword in order at this
position; if its tail fails, fall through to the next alternative. -/
def matchKws : List (List Char) → List Char → Option (List Char × List Char)
  | [], _ => none
  | k :: ks, cs =>
    match ciLead k cs with
    | some r =>
      (match matchTail r with
       | some res => some res
       | none => matchKws ks cs)
    | none => matchKws ks cs

/-- Leftmost match scan: the unmatched prefix plus, if a match exists,
its captured id and the remainder after the match. -/
def scanSegs (p : LinkPattern) : List Char → List Char × Option (List Char × List Char)
  | [] => ([], none)
  | c :: cs =>
    match matchKws p.keywords (c :: cs) with
    | some (id, rest) => ([], some (id, rest))
    | none =>
      let pr := scanSegs p cs
      (c :: pr.1, pr.2)

/-- All successive non-overlapping matches: `(pre, id)` pairs plus the tail
after the last match.  Fuel only bounds the recursion; each match consumes
at least one character, so `length + 1` fuel is never exhausted. -/
def segsFuel (p : LinkPattern) : Nat → List Char → List (List Char × List Char) × List Char
  | 0, cs => ([], cs)
  | fuel + 1, cs =>
    match scanSegs p cs with
    | (_, none) => ([], cs)
    | (pre, some (id, rest)) =>
      let pr := segsFuel p fuel rest
      ((pre, id) :: pr.1, pr.2)

/-- The anchor the widget builds for a match (`displayText` is
`"<display> #<id>"`). -/
def anchorChars (p : LinkPattern) (id : List Char) : List Char :=
  '<' :: ("a href=\"#\" class=\"odoo-record-link\" data-model=\"".data ++ p.model.data
    ++ "\" data-id=\"".data ++ id ++ "\">".data ++ p.display.data ++ " #".data
    ++ id ++ "</a>".data)

/-- Reassemble the split: non-matching segments verbatim, each match
replaced by its anchor, tail last (the loop over `segments` in the source). -/
def renderPairs (p : LinkPattern) : List (List Char × List Char) → List Char → List (List Char)
  | [], tail => [tail]
  | (pre, id) :: rest, tail => pre :: anchorChars p id :: renderPairs p rest tail

/-- One part under one pattern: parts already containing HTML are skipped. -/
def processPart (p : LinkPattern) (part : List Char) : List (List Char) :=
  if hasCharL part '<' || hasCharL part '>' then [part]
  else
    let sg := segsFuel p (part.length + 1) part
    renderPairs p sg.1 sg.2

/-- Embeds `parts.forEach` body: each part is expanded under the pattern. -/
def stepParts (p : LinkPattern) : List (List Char) → List (List Char)
  | [] => []
  | part :: rest => processPart p part ++ stepParts p rest

/-- Embeds `patterns.forEach`: fold the patterns over the part list. -/
def runPatterns : List LinkPattern → List (List Char) → List (List Char)
  | [], parts => parts
  | p :: ps, parts => runPatterns ps (stepParts p parts)

/-- Embeds `parts.join('')`. -/
def joinL : List (List Char) → List Char
  | [] => []
  | l :: ls => l ++ joinL ls

def createOdooRecordLinksL (cs : List Char) : List Char :=
  joinL (runPatterns linkPatterns [cs])

def createOdooRecordLinks (s : String) : String := ⟨createOdooRecordLinksL s.data⟩

/-! Section: `JSON.parse`

A structured JSON value; numbers are kept as their decimal lexeme (the
directives only carry integers, and the value is passed back verbatim to
the RPC transport). -/

inductive JVal where
  | jnull
  | jbool (b : Bool)
  | jnum (lex : String)
  | jstr (s : String)
  | jarr (elems : List JVal)
  | jobj (fields : List (String × JVal))

/-- JSON insignificant whitespace. -/
def skipJWsL (cs : List Char) : List Char :=
  cs.dropWhile (fun c => c = ' ' || c = '\t' || c = '\n' || c = '\r')

def hexVal (c : Char) : Option Nat :=
  let n := c.toNat
  if 48 ≤ n && n ≤ 57 then some (n - 48)
  else if 97 ≤ n && n ≤ 102 then some (n - 87)
  else if 65 ≤ n && n ≤ 70 then some (n - 55)
  else none

/-- JSON string body after the opening quote: contents plus remainder after
the closing quote.  Unescaped control characters are a parse error. -/
def parseJStrAux : List Char → Option (List Char × List Char)
  | [] => none
  | '"' :: rest => some ([], rest)
  | '\\' :: e :: rest =>
    (match e with
     | '"' => (parseJStrAux rest).map (fun pr => ('"' :: pr.1, pr.2))
     | '\\' => (parseJStrAux rest).map (fun pr => ('\\' :: pr.1, pr.2))
     | '/' => (parseJStrAux rest).map (fun pr => ('/' :: pr.1, pr.2))
     | 'b' => (parseJStrAux rest).map (fun pr => ('\x08' :: pr.1, pr.2))
     | 'f' => (parseJStrAux rest).map (fun pr => ('\x0c' :: pr.1, pr.2))
     | 'n' => (parseJStrAux rest).map (fun pr => ('\n' :: pr.1, pr.2))
     | 'r' => (parseJStrAux rest).map (fun pr => ('\r' :: pr.1, pr.2))
     | 't' => (parseJStrAux rest).map (fun pr => ('\t' :: pr.1, pr.2))
     | 'u' =>
       (match rest with
        | a :: b :: c :: d :: r2 =>
          match hexVal a, hexVal b, hexVal c, hexVal d with
          | some ha, some hb, some hc, some hd =>
            (parseJStrAux r2).map (fun pr =>
              (Char.ofNat (((ha * 16 + hb) * 16 + hc) * 16 + hd) :: pr.1, pr.2))
          | _, _, _, _ => none
        | _ => none)
     | _ => none)
  | c :: rest =>
    if c.toNat < 32 then none
    else (parseJStrAux rest).map (fun pr => (c :: pr.1, pr.2))

/-- Fraction and exponent suffix of a JSON number, given the lexeme so far. -/
def parseJNumRest (lex : List Char) (cs : List Char) : Option (List Char × List Char) :=
  let fr : Option (List Char × List Char) :=
    match cs with
    | '.' :: r =>
      (match takeWhileL isDigitCh r with
       | ([], _) => none
       | (ds, r2) => some (lex ++ '.' :: ds, r2))
    | _ => some (lex, cs)
  match fr with
  | none => none
  | some (lex2, cs2) =>
    match cs2 with
    | 'e' :: r => expPart lex2 'e' r
    | 'E' :: r => expPart lex2 'E' r
    | _ => some (lex2, cs2)
where
  expPart (lex2 : List Char) (e : Char) (r : List Char) : Option (List Char × List Char) :=
    let pr : List Char × List Char :=
      match r with
      | '+' :: r2 => (['+'], r2)
      | '-' :: r2 => (['-'], r2)
      | _ => ([], r)
    match takeWhileL isDigitCh pr.2 with
    | ([], _) => none
    | (ds, r3) => some (lex2 ++ e :: pr.1 ++ ds, r3)

/-- A JSON number at the head of the input (strict grammar: optional `-`,
`0` or a nonzero-led digit run, optional fraction and exponent). -/
def parseJNum (cs : List Char) : Option (List Char × List Char) :=
  let pr : List Char × List Char :=
    match cs with
    | '-' :: r => (['-'], r)
    | _ => ([], cs)
  match pr.2 with
  | '0' :: r => parseJNumRest (pr.1 ++ ['0']) r
  | c :: r =>
    if isDigitCh c then
      match takeWhileL isDigitCh r with
      | (ds, r2) => parseJNumRest (pr.1 ++ c :: ds) r2
    else none
  | [] => none

/-- Parse mode: a value, array elements (after `[`), object members (after
`{`). -/
inductive PMode where
  | val
  | elems
  | members

inductive PRes where
  | val (v : JVal)
  | elems (vs : List JVal)
  | members (fs : List (String × JVal))

/-- Recursive-descent JSON parser, fueled (fuel is structural; two levels of
recursion always consume at least one character, so the generous fuel used
by `jsonParseL` is never exhausted). -/
def parseStep : Nat → PMode → List Char → Option (PRes × List Char)
  | 0, _, _ => none
  | fuel + 1, PMode.val, cs0 =>
    let cs := skipJWsL cs0
    match cs with
    | '\x7b' :: r =>
      (match skipJWsL r with
       | '\x7d' :: r2 => some (.val (.jobj []), r2)
       | _ =>
         match parseStep fuel .members r with
         | some (.members fs, r2) => some (.val (.jobj fs), r2)
         | _ => none)
    | '[' :: r =>
      (match skipJWsL r with
       | ']' :: r2 => some (.val (.jarr []), r2)
       | _ =>
         match parseStep fuel .elems r with
         | some (.elems vs, r2) => some (.val (.jarr vs), r2)
         | _ => none)
    | '"' :: r => (parseJStrAux r).map (fun pr => (.val (.jstr ⟨pr.1⟩), pr.2))
    | _ =>
      if leadsWith "true".data cs then some (.val (.jbool true), cs.drop 4)
      else if leadsWith "false".data cs then some (.val (.jbool false), cs.drop 5)
      else if leadsWith "null".data cs then some (.val .jnull, cs.drop 4)
      else (parseJNum cs).map (fun pr => (.val (.jnum ⟨pr.1⟩), pr.2))
  | fuel + 1, PMode.elems, cs =>
    (match parseStep fuel .val cs with
     | some (.val v, r) =>
       (match skipJWsL r with
        | ',' :: r2 =>
          (match parseStep fuel .elems r2 with
           | some (.elems vs, r3) => some (.elems (v :: vs), r3)
           | _ => none)
        | ']' :: r2 => some (.elems [v], r2)
        | _ => none)
     | _ => none)
  | fuel + 1, PMode.members, cs0 =>
    (match skipJWsL cs0 with
     | '"' :: r =>
       (match parseJStrAux r with
        | some (k, r2) =>
          (match skipJWsL r2 with
           | ':' :: r3 =>
             (match parseStep fuel .val r3 with
              | some (.val v, r4) =>
                (match skipJWsL r4 with
                 | ',' :: r5 =>
                   (match parseStep fuel .members r5 with
                    | some (.members fs, r6) => some (.members ((⟨k⟩, v) :: fs), r6)
                    | _ => none)
                 | '\x7d' :: r5 => some (.members [(⟨k⟩, v)], r5)
                 | _ => none)
              | _ => none)
           | _ => none)
        | none => none)
     | _ => none)

/-- Embeds `JSON.parse`: one value, nothing but whitespace after it. -/
def jsonParseL (cs : List Char) : Option JVal :=
  match parseStep (2 * cs.length + 4) .val cs with
  | some (.val v, rest) => if skipJWsL rest = [] then some v else none
  | _ => none

/-- JS property lookup on a parsed JSON value: `none` is `undefined`.
`JSON.parse` keeps the last of duplicate keys. -/
def lookupLast : List (String × JVal) → String → Option JVal
  | [], _ => none
  | (k2, v) :: rest, k =>
    match lookupLast rest k with
    | some r => some r
    | none => if k2 = k then some v else none

def jGet (v : JVal) (k : String) : Option JVal :=
  match v with
  | .jobj fs => lookupLast fs k
  | _ => none

/-! Section: the widget state, collaborators and `sendMessage` -/

/-- An entry of `state.messages`: `{ content, isUser }`. -/
structure ChatMsg where
  content : String
  isUser : Bool

/-- An entry of `state.conversationHistory` and of the request history:
`{ role, content }`.  These records carry no `isUser` field. -/
structure HistMsg where
  role : String
  content : String

structure AgentState where
  messages : List ChatMsg
  inputMessage : String
  isLoading : Bool
  conversationHistory : List HistMsg

/-- The body posted to the model service. -/
structure FetchBody where
  message : String
  conversation_history : List HistMsg

/-- Outcome of the model-service call, as observed inside the `try` block:
a rejected fetch, a non-2xx status (`response.ok` false), a body on which
`response.json()`/`data.response` processing throws, or a response string. -/
inductive FetchOutcome where
  | netError (msg : String)
  | httpError (status : Nat)
  | badBody (msg : String)
  | ok (response : String)

/-- Is this outcome one of the failure modes (everything the `catch` block
of `sendMessage` sees)? -/
def isFetchFailure : FetchOutcome → Bool
  | .ok _ => false
  | _ => true

/-- The `error.message` observed by the `catch` block for each failure
mode (`HTTP error! status: ...` is thrown by the widget itself). -/
def fetchErrMsg : FetchOutcome → String
  | .netError m => m
  | .httpError status => "HTTP error! status: " ++ toString status
  | .badBody m => m
  | .ok _ => ""

inductive NotifKind where
  | success
  | warning
  | danger

structure Notif where
  kind : NotifKind
  text : String

/-- The parameter object handed to `this.rpc`; `none` is a missing field
(JS `undefined`). -/
structure RpcCall where
  model : Option JVal
  method : Option JVal
  args : Option JVal
  kwargs : Option JVal

/-- Everything observable after one `sendMessage` run: the new state and the
effect lists (model-service requests, RPC calls, notifications, view
reloads), each in issue order. -/
structure SendResult where
  state : AgentState
  fetches : List FetchBody
  rpcCalls : List RpcCall
  notifs : List Notif
  reloads : Nat

/-- JS property access `msg.isUser` on a conversation-history entry: those
records are created with only `role`/`content` fields, so the access yields
`undefined`. -/
def HistMsg.isUserProp (_ : HistMsg) : Option Bool := none

/-- One step of
`this.state.conversationHistory.map(msg => ({role: msg.isUser ? "user" : "assistant",
content: msg.isUser ? this.escapeHtml(msg.content) : msg.content}))` —
`msg.isUser` is `undefined` (falsy) on `{role, content}` records. -/
def mapHistEntry (msg : HistMsg) : HistMsg :=
  match msg.isUserProp with
  | some true => { role := "user", content := escapeHtml msg.content }
  | _ => { role := "assistant", content := msg.content }

def markerL : List Char := "DATABASE_OPERATION:".data

/-- Embeds `formattedResponse.includes("DATABASE_OPERATION:")`. -/
def hasMarker (cs : List Char) : Bool := (breakOnL markerL cs).isSome

/-- Embeds `formattedResponse.split("DATABASE_OPERATION:")[1].trim().split('\n')[0]`
followed by `JSON.parse` — `none` when the parse throws. -/
def extractDirectiveL (t : List Char) : Option JVal :=
  match breakOnL markerL t with
  | none => none
  | some (_, rest) =>
    let seg := match breakOnL markerL rest with
      | some (mid, _) => mid
      | none => rest
    jsonParseL ((jsTrimL seg).takeWhile (fun c => c ≠ '\n'))

/-- The RPC parameter object built from the parsed directive:
`{model: operation.model, method: operation.method, args: operation.args,
kwargs: operation.kwargs}`. -/
def mkRpcCall (op : JVal) : RpcCall :=
  { model := jGet op "model", method := jGet op "method",
    args := jGet op "args", kwargs := jGet op "kwargs" }

/-- Stands for the engine-specific `SyntaxError.message` text produced when
`JSON.parse` throws on the extracted directive. -/
def jsonSyntaxErrorMsg : String := "Unexpected token in JSON"

/-- The `sendMessage` method.  The two awaited collaborators are passed as
explicit outcomes: `fetch` for the model-service call and `rpcRes` for the
directive execution (only consulted when a directive is parsed). -/
def sendMessage (st : AgentState) (fetch : FetchOutcome) (rpcRes : Except String Unit) :
    SendResult :=
  if jsTrimL st.inputMessage.data = [] ∨ st.isLoading = true then
    { state := st, fetches := [], rpcCalls := [], notifs := [], reloads := 0 }
  else
    let message := st.inputMessage
    let messages1 := st.messages ++ [{ content := escapeHtml message, isUser := true }]
    let hist := st.conversationHistory.map mapHistEntry
      ++ [{ role := "user", content := escapeHtml message }]
    let body : FetchBody := { message := message, conversation_history := hist }
    match fetch with
    | .netError m =>
      { state := { messages := messages1, inputMessage := "", isLoading := false,
                   conversationHistory := st.conversationHistory },
        fetches := [body], rpcCalls := [],
        notifs := [{ kind := .danger, text := "Error sending message: " ++ m }],
        reloads := 0 }
    | .httpError status =>
      { state := { messages := messages1, inputMessage := "", isLoading := false,
                   conversationHistory := st.conversationHistory },
        fetches := [body], rpcCalls := [],
        notifs := [{ kind := .danger,
                     text := "Error sending message: HTTP error! status: " ++ toString status }],
        reloads := 0 }
    | .badBody m =>
      { state := { messages := messages1, inputMessage := "", isLoading := false,
                   conversationHistory := st.conversationHistory },
        fetches := [body], rpcCalls := [],
        notifs := [{ kind := .danger, text := "Error sending message: " ++ m }],
        reloads := 0 }
    | .ok raw =>
      let formatted := createOdooRecordLinksL (formatResponseL raw.data)
      let acts : List RpcCall × List Notif × Nat :=
        if hasMarker formatted then
          match extractDirectiveL formatted with
          | some op =>
            (match rpcRes with
             | .ok _ =>
               ([mkRpcCall op],
                [{ kind := NotifKind.success, text := "Operation completed successfully" }], 1)
             | .error e =>
               ([mkRpcCall op],
                [{ kind := NotifKind.danger, text := "Error executing operation: " ++ e }], 0))
          | none =>
            ([], [{ kind := NotifKind.danger,
                    text := "Error executing operation: " ++ jsonSyntaxErrorMsg }], 0)
        else ([], [], 0)
      { state := { messages := messages1 ++ [{ content := ⟨formatted⟩, isUser := false }],
                   inputMessage := "", isLoading := false,
                   conversationHistory := hist ++ [{ role := "assistant", content := ⟨formatted⟩ }] },
        fetches := [body], rpcCalls := acts.1, notifs := acts.2.1, reloads := acts.2.2 }

/-! Section: `handleOdooRecordClick` -/

/-- Decimal value of a digit run, accumulator style. -/
def digitsToNatAcc (acc : Nat) : List Char → Nat
  | [] => acc
  | c :: cs => digitsToNatAcc (acc * 10 + (c.toNat - 48)) cs

/-- Embeds `parseInt(s)`: leading whitespace, optional sign, leading decimal
digits; `none` is `NaN`. -/
def jsParseInt (s : String) : Option Int :=
  let cs := s.data.dropWhile isJsWs
  let pr : Bool × List Char :=
    match cs with
    | '-' :: r => (true, r)
    | '+' :: r => (false, r)
    | _ => (false, cs)
  match takeWhileL isDigitCh pr.2 with
  | ([], _) => none
  | (ds, _) =>
    let n : Nat := digitsToNatAcc 0 ds
    some (if pr.1 then -(n : Int) else (n : Int))

/-- Template interpolation of the parsed id (`NaN` prints as "NaN"). -/
def jsNumToStr : Option Int → String
  | some n => toString n
  | none => "NaN"

/-- The id as the JS number placed in the RPC arguments. -/
def jIdVal : Option Int → JVal
  | some n => .jnum (toString n)
  | none => .jnum "NaN"

/-- The existence check issued on activation:
`{model, method: 'search_count', args: [[['id','=',id]]], kwargs: {}}`. -/
def searchCountCall (model : String) (id : Option Int) : RpcCall :=
  { model := some (.jstr model), method := some (.jstr "search_count"),
    args := some (.jarr [.jarr [.jarr [.jstr "id", .jstr "=", jIdVal id]]]),
    kwargs := some (.jobj []) }

/-- Effects of a click: opening the record (`action.doAction` with
`ir.actions.act_window`) or a notification. -/
inductive ClickEffect where
  | navigate (resModel : String) (resId : Option Int)
  | notify (kind : NotifKind) (text : String)

structure ClickResult where
  rpcCalls : List RpcCall
  effects : List ClickEffect
  state : AgentState

/-- The `handleOdooRecordClick` method: nothing happens unless the click
target carries the `odoo-record-link` class; otherwise the `search_count`
existence check runs and its outcome (`backend`) selects navigation, a
"record not found" warning, or a danger notice.  The conversation state is
never touched. -/
def handleOdooRecordClick (st : AgentState) (isRecordLink : Bool) (model : String)
    (idAttr : String) (backend : Except String Int) : ClickResult :=
  if isRecordLink = false then { rpcCalls := [], effects := [], state := st }
  else
    let id := jsParseInt idAttr
    let call := searchCountCall model id
    match backend with
    | .ok n =>
      if n ≠ 0 then { rpcCalls := [call], effects := [.navigate model id], state := st }
      else
        { rpcCalls := [call],
          effects := [.notify .warning
            ("Record not found: " ++ model ++ " #" ++ jsNumToStr id)],
          state := st }
    | .error e =>
      { rpcCalls := [call],
        effects := [.notify .danger ("Error opening record: " ++ e)],
        state := st }

/-! Section: concrete scenario inputs used by the claim theorems -/

/-- Model response of the spec's update scenario: guidance text plus a
well-formed `write` directive on `sale.order.line`. -/
def rawWrite : String :=
  "OK I will update it now.\nDATABASE_OPERATION:\x7b\"model\":\"sale.order.line\",\"method\":\"write\",\"args\":[[42],\x7b\"product_uom_qty\":3\x7d],\"kwargs\":\x7b\x7d\x7d"

/-- Model response with a well-formed directive whose method is `delete`. -/
def rawDelete : String :=
  "DATABASE_OPERATION:\x7b\"model\":\"res.partner\",\"method\":\"delete\",\"args\":[[7]],\"kwargs\":\x7b\x7d\x7d"

/-- Model response with a well-formed `write` directive that carries the
text "SO 7" inside a JSON string value. -/
def rawSoRef : String :=
  "DATABASE_OPERATION:\x7b\"model\":\"res.partner\",\"method\":\"write\",\"args\":[[5],\x7b\"ref\":\"SO 7\"\x7d],\"kwargs\":\x7b\x7d\x7d"

/-- The parsed form of the `delete` directive in `rawDelete`. -/
def opDelete : JVal :=
  .jobj [("model", .jstr "res.partner"), ("method", .jstr "delete"),
         ("args", .jarr [.jarr [.jnum "7"]]), ("kwargs", .jobj [])]

/-- A fresh session about to send the scenario update request. -/
def stWrite : AgentState :=
  { messages := [], inputMessage := "Update item office chair to 3 quantity from 2",
    isLoading := false, conversationHistory := [] }

/-- A fresh session about to send a removal request. -/
def stDelete : AgentState :=
  { messages := [], inputMessage := "remove partner 7",
    isLoading := false, conversationHistory := [] }

/-- A fresh session about to send a reference-update request. -/
def stSoRef : AgentState :=
  { messages := [], inputMessage := "update the partner ref",
    isLoading := false, conversationHistory := [] }

/-- A session after one completed exchange: the stored history holds the
escaped user turn (role "user") and the assistant turn. -/
def stSecond : AgentState :=
  { messages := [{ content := "&lt;hi&gt;", isUser := true }, { content := "ok", isUser := false }],
    inputMessage := "next", isLoading := false,
    conversationHistory := [{ role := "user", content := "&lt;hi&gt;" },
                            { role := "assistant", content := "ok" }] }

/-! Section: helper lemmas about the Entity Reference Resolver -/

theorem hasCharL_append (l1 l2 : List Char) (c : Char) :
    hasCharL (l1 ++ l2) c = (hasCharL l1 c || hasCharL l2 c) := by
  induction l1 with
  | nil => rfl
  | cons a as ih => simp [hasCharL, ih, Bool.or_assoc]

theorem anchorChars_hasLt (p : LinkPattern) (id : List Char) :
    hasCharL (anchorChars p id) '<' = true := by
  simp [anchorChars, hasCharL]

theorem processPart_skip (p : LinkPattern) (part : List Char)
    (h : hasCharL part '<' = true ∨ hasCharL part '>' = true) :
    processPart p part = [part] := by
  unfold processPart
  rcases h with h | h <;> simp [h]

theorem processPart_cases (p : LinkPattern) (part : List Char) :
    processPart p part = [part] ∨ ∃ q ∈ processPart p part, hasCharL q '<' = true := by
  by_cases hg : (hasCharL part '<' || hasCharL part '>') = true
  · left
    unfold processPart
    rw [if_pos hg]
  · unfold processPart
    rw [if_neg hg]
    cases hs : scanSegs p part with
    | mk pre opt =>
      cases opt with
      | none =>
        left
        simp [segsFuel, hs, renderPairs]
      | some pr =>
        right
        refine ⟨anchorChars p pr.1, ?_, anchorChars_hasLt p pr.1⟩
        simp [segsFuel, hs, renderPairs]

theorem mem_stepParts {p : LinkPattern} {parts : List (List Char)} {part q : List Char}
    (hp : part ∈ parts) (hq : q ∈ processPart p part) : q ∈ stepParts p parts := by
  induction parts with
  | nil => cases hp
  | cons a as ih =>
    rw [stepParts]
    rcases List.mem_cons.mp hp with rfl | hp2
    · exact List.mem_append_left _ hq
    · exact List.mem_append_right _ (ih hp2)

theorem stepParts_id {p : LinkPattern} {parts : List (List Char)}
    (h : ∀ part ∈ parts, processPart p part = [part]) :
    stepParts p parts = parts := by
  induction parts with
  | nil => rfl
  | cons a as ih =>
    rw [stepParts, h a (List.mem_cons_self a as), ih (fun part hp => h part (List.mem_cons_of_mem a hp))]
    rfl

theorem runPatterns_preserves_lt {ps : List LinkPattern} {parts : List (List Char)}
    (h : ∃ q ∈ parts, hasCharL q '<' = true) :
    ∃ q ∈ runPatterns ps parts, hasCharL q '<' = true := by
  induction ps generalizing parts with
  | nil => exact h
  | cons p ps ih =>
    obtain ⟨q, hq, hlt⟩ := h
    rw [runPatterns]
    refine ih ⟨q, ?_, hlt⟩
    refine mem_stepParts hq ?_
    rw [processPart_skip p q (Or.inl hlt)]
    exact List.mem_singleton.mpr rfl

theorem runPatterns_cases (ps : List LinkPattern) (parts : List (List Char)) :
    runPatterns ps parts = parts ∨ ∃ q ∈ runPatterns ps parts, hasCharL q '<' = true := by
  induction ps generalizing parts with
  | nil => left; rfl
  | cons p ps ih =>
    by_cases h : ∀ part ∈ parts, processPart p part = [part]
    · rw [runPatterns, stepParts_id h]
      exact ih parts
    · push_neg at h
      obtain ⟨part, hp, hne⟩ := h
      rcases processPart_cases p part with he | ⟨q, hq, hlt⟩
      · exact absurd he hne
      · right
        rw [runPatterns]
        exact runPatterns_preserves_lt ⟨q, mem_stepParts hp hq, hlt⟩

theorem runPatterns_skip (ps : List LinkPattern) (cs : List Char)
    (h : hasCharL cs '<' = true ∨ hasCharL cs '>' = true) :
    runPatterns ps [cs] = [cs] := by
  induction ps with
  | nil => rfl
  | cons p ps ih =>
    rw [runPatterns, stepParts, processPart_skip p cs h, stepParts]
    exact ih

theorem joinL_single (cs : List Char) : joinL [cs] = cs := by
  simp [joinL]

theorem hasCharL_joinL {parts : List (List Char)} {q : List Char} {c : Char}
    (hq : q ∈ parts) (h : hasCharL q c = true) :
    hasCharL (joinL parts) c = true := by
  induction parts with
  | nil => cases hq
  | cons a as ih =>
    rw [joinL, hasCharL_append]
    rcases List.mem_cons.mp hq with rfl | hq2
    · simp [h]
    · simp [ih hq2]

theorem linkify_skip (cs : List Char)
    (h : hasCharL cs '<' = true ∨ hasCharL cs '>' = true) :
    createOdooRecordLinksL cs = cs := by
  unfold createOdooRecordLinksL
  rw [runPatterns_skip _ _ h, joinL_single]

/-! Section: helper lemmas about directive extraction -/

theorem extract_none_of_no_marker {t : List Char} (h : hasMarker t = false) :
    extractDirectiveL t = none := by
  unfold hasMarker at h
  unfold extractDirectiveL
  cases hb : breakOnL markerL t with
  | none => rfl
  | some pr => rw [hb] at h; simp at h

theorem marker_of_extract_some {t : List Char} {op : JVal}
    (h : extractDirectiveL t = some op) : hasMarker t = true := by
  by_cases hm : hasMarker t = true
  · exact hm
  · rw [extract_none_of_no_marker (Bool.of_not_eq_true hm)] at h
    exact absurd h (by simp)

/-! Section: claim theorems -/

/-- C6: the Entity Reference Resolver never rewrites text that is already
inside a reference span it produced: `createOdooRecordLinks` applied to its
own output is a no-op (so no double-linking or nested markup), and during a
single run any part that already carries markup (`<` or `>`) — in particular
every anchor produced by an earlier pattern — is passed through unchanged by
every later pattern. -/
theorem C6_linkify_idempotent :
    (∀ cs : List Char,
        createOdooRecordLinksL (createOdooRecordLinksL cs) = createOdooRecordLinksL cs)
    ∧ (∀ (p : LinkPattern) (part : List Char),
        hasCharL part '<' = true ∨ hasCharL part '>' = true →
        processPart p part = [part]) := by
  constructor
  · intro cs
    rcases runPatterns_cases linkPatterns [cs] with he | ⟨q, hq, hlt⟩
    · have h1 : createOdooRecordLinksL cs = cs := by
        unfold createOdooRecordLinksL
        rw [he, joinL_single]
      rw [h1]
      exact h1
    · have hlt2 : hasCharL (createOdooRecordLinksL cs) '<' = true := by
        unfold createOdooRecordLinksL
        exact hasCharL_joinL hq hlt
      exact linkify_skip _ (Or.inl hlt2)
  · exact processPart_skip

/-- Witness for C6 at concrete inputs: an already-produced anchor is passed
through unchanged by the first pattern, and linkification of a text that
does produce a reference is idempotent. -/
theorem C6_witness :
    processPart (linkPatterns.get ⟨0, by decide⟩) "<a>WO 5</a>".data = ["<a>WO 5</a>".data]
    ∧ createOdooRecordLinksL (createOdooRecordLinksL "See WO 5".data)
        = createOdooRecordLinksL "See WO 5".data := by
  exact ⟨C6_linkify_idempotent.2 _ _ (Or.inl (by decide)), C6_linkify_idempotent.1 _⟩

/-- C10: any input string containing a `<` or `>` anywhere is returned by
`createOdooRecordLinks` completely unchanged — a single markup-like
character suppresses linkification of the entire message. -/
theorem C10_markup_suppresses_linkify (s : String)
    (h : hasCharL s.data '<' = true ∨ hasCharL s.data '>' = true) :
    createOdooRecordLinks s = s := by
  unfold createOdooRecordLinks
  rw [linkify_skip s.data h]

/-- Witness for C10: a message with one `<` keeps even its far-away
"WO 5" span unlinkified, although the same span alone would be linkified. -/
theorem C10_witness :
    createOdooRecordLinks "a < b and WO 5" = "a < b and WO 5"
    ∧ createOdooRecordLinks "WO 5" ≠ "WO 5" := by
  exact ⟨C10_markup_suppresses_linkify _ (Or.inl (by decide)), by decide⟩

/-- C5 fails on the code: the abbreviation-protection replace uses a
non-capturing group with a `$1` replacement, so JS substitutes the literal
text `ABBR_PLACEHOLDER_$1` and the abbreviation itself is deleted; after
unwrapping, the Reflow Formatter turns the protected spans `Dr.` and
`e.g. example` into `$1` and `$1 example` instead of leaving them
unchanged.  (The other protected classes do round-trip: `3.14`,
`12.31.2024` and a URL are preserved.) -/
theorem C5_abbr_destroyed :
    formatResponse "Dr." = "$1"
    ∧ formatResponse "e.g. example" = "$1 example"
    ∧ formatResponse "3.14" = "3.14"
    ∧ formatResponse "12.31.2024" = "12.31.2024"
    ∧ formatResponse "http://x.com/a.b" = "http://x.com/a.b" := by
  exact ⟨rfl, rfl, rfl, rfl, rfl⟩

/-- C7 fails on the code: when building the request history, the map reads
`msg.isUser` on stored `{role, content}` records, which is always
`undefined`, so every stored turn — including the user turn stored with
role "user" and single-escaped content — is sent to the model with role
"assistant".  (The content itself does remain the single escaping of the
original message.)  Evaluated on a session whose stored history is the
escaped user turn `&lt;hi&gt;` followed by an assistant turn. -/
theorem C7_history_roles_wrong :
    (sendMessage stSecond (FetchOutcome.ok "fine") (Except.ok ())).fetches =
      [{ message := "next",
         conversation_history :=
           [{ role := "assistant", content := "&lt;hi&gt;" },
            { role := "assistant", content := "ok" },
            { role := "user", content := "next" }] }] := by
  rfl

/-- C8: on empty or whitespace-only pending input, or while the per-session
busy flag is set, `sendMessage` is a complete no-op: no model-service
request, no RPC call, no notification, no state change of any kind. -/
theorem C8_guard_noop (st : AgentState) (fetch : FetchOutcome) (rpcRes : Except String Unit)
    (h : jsTrimL st.inputMessage.data = [] ∨ st.isLoading = true) :
    sendMessage st fetch rpcRes =
      { state := st, fetches := [], rpcCalls := [], notifs := [], reloads := 0 } := by
  unfold sendMessage
  rw [if_pos h]

/-- Witness for C8: a whitespace-only input and a busy session are both
rejected without any effect. -/
theorem C8_witness :
    sendMessage { messages := [], inputMessage := "   ", isLoading := false,
                  conversationHistory := [] } (FetchOutcome.ok "x") (Except.ok ()) =
      { state := { messages := [], inputMessage := "   ", isLoading := false,
                   conversationHistory := [] },
        fetches := [], rpcCalls := [], notifs := [], reloads := 0 }
    ∧ sendMessage { messages := [], inputMessage := "go", isLoading := true,
                    conversationHistory := [] } (FetchOutcome.ok "x") (Except.ok ()) =
      { state := { messages := [], inputMessage := "go", isLoading := true,
                   conversationHistory := [] },
        fetches := [], rpcCalls := [], notifs := [], reloads := 0 } := by
  exact ⟨C8_guard_noop _ _ _ (Or.inl (by decide)), C8_guard_noop _ _ _ (Or.inr rfl)⟩

/-- C1 fails on the code: the directive path of `sendMessage` performs no
allow-list check at all.  At a concrete well-formed `DATABASE_OPERATION`
directive whose method is "delete", the pipeline issues the RPC call with
method "delete" instead of rejecting it. -/
theorem C1_counterexample :
    (sendMessage stDelete (FetchOutcome.ok rawDelete) (Except.ok ())).rpcCalls =
      [{ model := some (JVal.jstr "res.partner"), method := some (JVal.jstr "delete"),
         args := some (JVal.jarr [JVal.jarr [JVal.jnum "7"]]),
         kwargs := some (JVal.jobj []) }] := by
  rfl

/-- C1 amended: no allow-list exists; every directive whose extracted
payload parses is submitted exactly once to the ERP RPC collaborator with
its own model, method, args and kwargs, whatever the method — including
"delete". -/
theorem C1_amended (st : AgentState) (raw : String) (rpcRes : Except String Unit) (op : JVal)
    (hg : ¬ (jsTrimL st.inputMessage.data = [] ∨ st.isLoading = true))
    (hx : extractDirectiveL (createOdooRecordLinksL (formatResponseL raw.data)) = some op) :
    (sendMessage st (FetchOutcome.ok raw) rpcRes).rpcCalls = [mkRpcCall op] := by
  have hm := marker_of_extract_some hx
  unfold sendMessage
  rw [if_neg hg]
  simp only [hm, hx, if_true]
  cases rpcRes <;> rfl

/-- Witness for C1 amended, at the concrete "delete" directive. -/
theorem C1_witness :
    (sendMessage stDelete (FetchOutcome.ok rawDelete) (Except.ok ())).rpcCalls =
      [mkRpcCall opDelete] := by
  exact C1_amended stDelete rawDelete (Except.ok ()) opDelete (by decide) rfl

/-- C2: every failure of the model-service call — rejected fetch, non-2xx
status, or a body on which response processing throws — is caught and
surfaced as a danger notice; no assistant turn is appended, the
already-appended user turn stays, the stored conversation history is
untouched, and no RPC call is issued. -/
theorem C2_model_failure (st : AgentState) (fetch : FetchOutcome) (rpcRes : Except String Unit)
    (hg : ¬ (jsTrimL st.inputMessage.data = [] ∨ st.isLoading = true))
    (hf : isFetchFailure fetch = true) :
    (sendMessage st fetch rpcRes).state.messages =
        st.messages ++ [{ content := escapeHtml st.inputMessage, isUser := true }]
    ∧ (sendMessage st fetch rpcRes).state.conversationHistory = st.conversationHistory
    ∧ (sendMessage st fetch rpcRes).notifs =
        [{ kind := NotifKind.danger, text := "Error sending message: " ++ fetchErrMsg fetch }]
    ∧ (sendMessage st fetch rpcRes).rpcCalls = [] := by
  cases fetch with
  | ok r => simp [isFetchFailure] at hf
  | netError m =>
    unfold sendMessage
    rw [if_neg hg]
    exact ⟨rfl, rfl, rfl, rfl⟩
  | httpError status =>
    unfold sendMessage
    rw [if_neg hg]
    exact ⟨rfl, rfl, rfl, rfl⟩
  | badBody m =>
    unfold sendMessage
    rw [if_neg hg]
    exact ⟨rfl, rfl, rfl, rfl⟩

/-- Witness for C2 at a concrete session and a concrete network failure. -/
theorem C2_witness :
    (sendMessage stSecond (FetchOutcome.netError "Failed to fetch") (Except.ok ())).state.messages =
        [{ content := "&lt;hi&gt;", isUser := true }, { content := "ok", isUser := false },
         { content := "next", isUser := true }]
    ∧ (sendMessage stSecond (FetchOutcome.netError "Failed to fetch") (Except.ok ())).state.conversationHistory =
        [{ role := "user", content := "&lt;hi&gt;" }, { role := "assistant", content := "ok" }]
    ∧ (sendMessage stSecond (FetchOutcome.netError "Failed to fetch") (Except.ok ())).notifs =
        [{ kind := NotifKind.danger, text := "Error sending message: Failed to fetch" }]
    ∧ (sendMessage stSecond (FetchOutcome.netError "Failed to fetch") (Except.ok ())).rpcCalls = [] := by
  exact C2_model_failure stSecond (FetchOutcome.netError "Failed to fetch") (Except.ok ())
    (by decide) rfl

/-- C3 fails on the code: the directive scan runs over the linkified text,
not over the formatted-but-unlinkified text.  At a concrete response whose
formatted text carries a well-formed directive containing the span "SO 7"
inside a JSON string, linkification rewrites that span into an anchor, the
scanned copy of the directive no longer parses, and no RPC call is issued —
although the formatted (unlinkified) text still holds a parseable
directive. -/
theorem C3_counterexample :
    (extractDirectiveL (formatResponseL rawSoRef.data)).isSome = true
    ∧ (sendMessage stSoRef (FetchOutcome.ok rawSoRef) (Except.ok ())).rpcCalls = []
    ∧ createOdooRecordLinksL (formatResponseL rawSoRef.data) ≠ formatResponseL rawSoRef.data := by
  exact ⟨rfl, rfl, by decide⟩

/-- C3 amended: the text scanned for the directive trigger equals
`createOdooRecordLinks (formatResponse raw)` — the linkified formatted
text, which is also exactly the content stored in the appended assistant
turn; the RPC calls issued are those extracted from that linkified text. -/
theorem C3_amended (st : AgentState) (raw : String) (rpcRes : Except String Unit)
    (hg : ¬ (jsTrimL st.inputMessage.data = [] ∨ st.isLoading = true)) :
    (sendMessage st (FetchOutcome.ok raw) rpcRes).state.messages =
        st.messages ++ [{ content := escapeHtml st.inputMessage, isUser := true },
                        { content := createOdooRecordLinks (formatResponse raw), isUser := false }]
    ∧ (sendMessage st (FetchOutcome.ok raw) rpcRes).rpcCalls =
        (match extractDirectiveL (createOdooRecordLinks (formatResponse raw)).data with
         | some op => [mkRpcCall op]
         | none => []) := by
  constructor
  · unfold sendMessage
    rw [if_neg hg]
    simp [List.append_assoc, createOdooRecordLinks, formatResponse]
  · unfold sendMessage
    rw [if_neg hg]
    by_cases hm : hasMarker (createOdooRecordLinksL (formatResponseL raw.data)) = true
    · simp only [hm, if_true]
      cases hx : extractDirectiveL (createOdooRecordLinksL (formatResponseL raw.data)) with
      | none => simp [createOdooRecordLinks, formatResponse, hx]
      | some op =>
        simp only [createOdooRecordLinks, formatResponse, hx]
        cases rpcRes <;> rfl
    · have hx := extract_none_of_no_marker (Bool.of_not_eq_true hm)
      simp [hm, createOdooRecordLinks, formatResponse, hx]

/-- Witness for C3 amended at the concrete "SO 7" scenario. -/
theorem C3_witness :
    (sendMessage stSoRef (FetchOutcome.ok rawSoRef) (Except.ok ())).state.messages =
        [{ content := "update the partner ref", isUser := true },
         { content := createOdooRecordLinks (formatResponse rawSoRef), isUser := false }]
    ∧ (sendMessage stSoRef (FetchOutcome.ok rawSoRef) (Except.ok ())).rpcCalls = [] := by
  have h := C3_amended stSoRef rawSoRef (Except.ok ()) (by decide)
  exact ⟨h.1, h.2⟩

/-- C4 fails on one point: after executing the directive, the assistant
turn appended to the conversation still contains the `DATABASE_OPERATION:`
line verbatim — nothing removes or hides it from the user-visible
content. -/
theorem C4_counterexample :
    (sendMessage stWrite (FetchOutcome.ok rawWrite) (Except.ok ())).state.messages =
      [{ content := "Update item office chair to 3 quantity from 2", isUser := true },
       { content := rawWrite, isUser := false }]
    ∧ hasMarker rawWrite.data = true := by
  exact ⟨rfl, rfl⟩

/-- C4 amended: on the spec's update scenario the pipeline issues exactly
one `write` RPC call with exactly the directive's model, method, args and
kwargs, emits one success notice, requests one view reload — and the
appended assistant turn shows the response text with the directive line
still present. -/
theorem C4_amended :
    (sendMessage stWrite (FetchOutcome.ok rawWrite) (Except.ok ())).rpcCalls =
      [{ model := some (JVal.jstr "sale.order.line"), method := some (JVal.jstr "write"),
         args := some (JVal.jarr [JVal.jarr [JVal.jnum "42"],
                                  JVal.jobj [("product_uom_qty", JVal.jnum "3")]]),
         kwargs := some (JVal.jobj []) }]
    ∧ (sendMessage stWrite (FetchOutcome.ok rawWrite) (Except.ok ())).notifs =
        [{ kind := NotifKind.success, text := "Operation completed successfully" }]
    ∧ (sendMessage stWrite (FetchOutcome.ok rawWrite) (Except.ok ())).reloads = 1
    ∧ (sendMessage stWrite (FetchOutcome.ok rawWrite) (Except.ok ())).state.messages =
        [{ content := "Update item office chair to 3 quantity from 2", isUser := true },
         { content := rawWrite, isUser := false }] := by
  exact ⟨rfl, rfl, rfl, rfl⟩

/-- C9: existence is checked only at activation.  The resolver issues no
backend call during the scan (a response without a directive marker issues
zero RPC calls however many references are linkified), and on activation
the `search_count` outcome selects the effect: a positive count navigates
to the record, a zero count surfaces a record-not-found warning, a failed
call surfaces a danger notice — and in every case the conversation state is
returned untouched and no turn is appended. -/
theorem C9_activation :
    (∀ (st : AgentState) (model idAttr : String) (n : Int), 0 < n →
      handleOdooRecordClick st true model idAttr (Except.ok n) =
        { rpcCalls := [searchCountCall model (jsParseInt idAttr)],
          effects := [ClickEffect.navigate model (jsParseInt idAttr)], state := st })
    ∧ (∀ (st : AgentState) (model idAttr : String),
      handleOdooRecordClick st true model idAttr (Except.ok 0) =
        { rpcCalls := [searchCountCall model (jsParseInt idAttr)],
          effects := [ClickEffect.notify NotifKind.warning
            ("Record not found: " ++ model ++ " #" ++ jsNumToStr (jsParseInt idAttr))],
          state := st })
    ∧ (∀ (st : AgentState) (model idAttr e : String),
      handleOdooRecordClick st true model idAttr (Except.error e) =
        { rpcCalls := [searchCountCall model (jsParseInt idAttr)],
          effects := [ClickEffect.notify NotifKind.danger ("Error opening record: " ++ e)],
          state := st })
    ∧ (∀ (st : AgentState) (raw : String) (rpcRes : Except String Unit),
      hasMarker (createOdooRecordLinksL (formatResponseL raw.data)) = false →
      (sendMessage st (FetchOutcome.ok raw) rpcRes).rpcCalls = []) := by
  refine ⟨?_, ?_, ?_, ?_⟩
  · intro st model idAttr n hn
    unfold handleOdooRecordClick
    rw [if_neg (by simp)]
    simp only
    rw [if_pos (ne_of_gt hn)]
  · intro st model idAttr
    unfold handleOdooRecordClick
    rw [if_neg (by simp)]
    simp only
    rw [if_neg (by simp)]
  · intro st model idAttr e
    unfold handleOdooRecordClick
    rw [if_neg (by simp)]
  · intro st raw rpcRes hm
    by_cases hg : jsTrimL st.inputMessage.data = [] ∨ st.isLoading = true
    · unfold sendMessage
      rw [if_pos hg]
    · unfold sendMessage
      rw [if_neg hg]
      simp [hm]

/-- Witness for C9: activation on an existing work order navigates, on a
missing one warns, on a transport error raises a danger notice; and a
response that linkifies two references but has no directive issues zero
RPC calls. -/
theorem C9_witness :
    handleOdooRecordClick stWrite true "mrp.workorder" "882" (Except.ok 1) =
      { rpcCalls := [searchCountCall "mrp.workorder" (some 882)],
        effects := [ClickEffect.navigate "mrp.workorder" (some 882)], state := stWrite }
    ∧ handleOdooRecordClick stWrite true "mrp.workorder" "99" (Except.ok 0) =
      { rpcCalls := [searchCountCall "mrp.workorder" (some 99)],
        effects := [ClickEffect.notify NotifKind.warning "Record not found: mrp.workorder #99"],
        state := stWrite }
    ∧ handleOdooRecordClick stWrite true "mrp.workorder" "7" (Except.error "boom") =
      { rpcCalls := [searchCountCall "mrp.workorder" (some 7)],
        effects := [ClickEffect.notify NotifKind.danger "Error opening record: boom"],
        state := stWrite }
    ∧ (sendMessage stWrite (FetchOutcome.ok "See WO #882 and the related MO 41")
        (Except.ok ())).rpcCalls = [] := by
  refine ⟨?_, ?_, ?_, ?_⟩
  · exact C9_activation.1 stWrite "mrp.workorder" "882" 1 (by decide)
  · exact C9_activation.2.1 stWrite "mrp.workorder" "99"
  · exact C9_activation.2.2.1 stWrite "mrp.workorder" "7" "boom"
  · exact C9_activation.2.2.2 stWrite "See WO #882 and the related MO 41" (Except.ok ()) (by decide)

end AIAgent
